import Mathlib

/-!
Verification of the gprMax FDTD core (files `gprMax/gprMax.py` and
`gprMax/grid.py`) against its natural-language specification.

The Python source is shallowly embedded: machine floats are modelled by
exact rationals (reals where a square root occurs), numpy arrays by
functions from indices, fallible code by `Except`/`Option`, and the main
FDTD loop by an executable event-trace semantics that records the phases
the scheduler executes in order.
-/

namespace GprMax

/-- The three spatial axes `x`, `y`, `z`. -/
inductive Axis : Type
  | x
  | y
  | z
deriving DecidableEq, Repr

/-- Embedding of `grid.Grid` / `grid.FDTDGrid` discretisation data: cell
counts `nx, ny, nz` and cell edge lengths `dx, dy, dz`
(`grid.py` lines 30-35 and 75-80). -/
structure Grid : Type where
  nx : ℤ
  ny : ℤ
  nz : ℤ
  dx : ℚ
  dy : ℚ
  dz : ℚ
deriving DecidableEq, Repr

/-- `getattr(self, 'n' + co)`: the cell count along an axis. -/
def nval (G : Grid) : Axis → ℤ
  | .x => G.nx
  | .y => G.ny
  | .z => G.nz

/-- `getattr(self, 'd' + coord)`: the edge length along an axis. -/
def dval (G : Grid) : Axis → ℚ
  | .x => G.dx
  | .y => G.dy
  | .z => G.dz

/-- Embedding of `Grid.within_bounds` (`grid.py` lines 57-60): iterate the
keyword arguments in order; raise `ValueError(co)` — modelled as
`Except.error` carrying the axis — at the first value with `val < 0` or
`val > n_co`; otherwise return normally. -/
def within_bounds (G : Grid) : List (Axis × ℤ) → Except Axis Unit
  | [] => Except.ok ()
  | (a, v) :: rest =>
      if v < 0 ∨ nval G a < v then Except.error a else within_bounds G rest

/-- Modelled from the spec: `round_value` lives in `gprMax/utilities.py`,
which is not part of the sources under verification; the spec states that
metres-to-cell conversion uses banker's rounding (round half to even), so
that rule is embedded here over exact rationals. -/
def round_value (q : ℚ) : ℤ :=
  let f : ℤ := ⌊q⌋
  let r : ℚ := q - f
  if r < 1 / 2 then f
  else if 1 / 2 < r then f + 1
  else if Even f then f else f + 1

/-- Embedding of `Grid.calculate_coord` (`grid.py` lines 62-64):
`co = round_value(float(val) / getattr(self, 'd' + coord))`. -/
def calculate_coord (G : Grid) (a : Axis) (val : ℚ) : ℤ :=
  round_value (val / dval G a)

/-- Embedding of `grid.Ix` (`grid.py` lines 231-246): x-component of
current at a grid position, computed from the `Hy`, `Hz` arrays. -/
def Ix (x y z : ℕ) (Hy Hz : ℕ → ℕ → ℕ → ℚ) (G : Grid) : ℚ :=
  if y = 0 ∨ z = 0 then 0
  else G.dy * (Hy x y (z - 1) - Hy x y z) + G.dz * (Hz x y z - Hz x (y - 1) z)

/-- Embedding of `grid.Iy` (`grid.py` lines 249-264). -/
def Iy (x y z : ℕ) (Hx Hz : ℕ → ℕ → ℕ → ℚ) (G : Grid) : ℚ :=
  if x = 0 ∨ z = 0 then 0
  else G.dx * (Hx x y z - Hx x y (z - 1)) + G.dz * (Hz (x - 1) y z - Hz x y z)

/-- Embedding of `grid.Iz` (`grid.py` lines 267-282). -/
def Iz (x y z : ℕ) (Hx Hy : ℕ → ℕ → ℕ → ℚ) (G : Grid) : ℚ :=
  if x = 0 ∨ y = 0 then 0
  else G.dx * (Hx x (y - 1) z - Hx x y z) + G.dy * (Hy x y z - Hy (x - 1) y z)

/-- The catalogue index of the free-space material.  The builder's own
documentation (`grid.py` line 110) states that the `solid` and `ID`
arrays are "initialised to free_space (one)": free space is catalogue
entry 1 (entry 0 is the perfect electric conductor). -/
def free_space_numID : ℕ := 1

/-- Embedding of the `solid` array produced by
`FDTDGrid.initialise_geometry_arrays` (`grid.py` line 112):
`np.ones((nx + 1, ny + 1, nz + 1), dtype=np.uint32)`. -/
def solid_init (nx ny nz : ℕ) : Fin (nx + 1) → Fin (ny + 1) → Fin (nz + 1) → ℕ :=
  fun _ _ _ => 1

/-- Embedding of the `rigidE` array (`grid.py` line 113): zeros. -/
def rigidE_init (nx ny nz : ℕ) :
    Fin 12 → Fin (nx + 1) → Fin (ny + 1) → Fin (nz + 1) → ℤ :=
  fun _ _ _ _ => 0

/-- Embedding of the `rigidH` array (`grid.py` line 114): zeros. -/
def rigidH_init (nx ny nz : ℕ) :
    Fin 6 → Fin (nx + 1) → Fin (ny + 1) → Fin (nz + 1) → ℤ :=
  fun _ _ _ _ => 0

/-- Embedding of the `ID` array produced by
`FDTDGrid.initialise_geometry_arrays` (`grid.py` line 116):
`np.ones((6, nx + 1, ny + 1, nz + 1), dtype=np.uint32)`. -/
def ID_init (nx ny nz : ℕ) :
    Fin 6 → Fin (nx + 1) → Fin (ny + 1) → Fin (nz + 1) → ℕ :=
  fun _ _ _ _ => 1

/-- Embedding of the fields of `materials.Material` that the voltage-source
material synthesis reads or writes (`mID` is the textual `ID`, `numID` the
catalogue index, `er`/`se` permittivity and electric conductivity,
`mr`/`sm` permeability and magnetic loss, `average` the smoothing flag). -/
structure SMaterial : Type where
  mID : String
  numID : ℕ
  er : ℚ
  se : ℚ
  mr : ℚ
  sm : ℚ
  average : Bool
deriving DecidableEq, Repr

/-- Embedding of a voltage source record: polarisation axis, integer cell
position and series resistance. -/
structure VoltageSource : Type where
  polarisation : Axis
  positionx : ℕ
  positiony : ℕ
  positionz : ℕ
  resistance : ℚ
deriving DecidableEq, Repr

/-- The component index used by the `ID` array for the electric component
along an axis (`IDlookup = {'Ex': 0, 'Ey': 1, 'Ez': 2, ...}`,
`grid.py` line 115). -/
def componentIndex : Axis → ℕ
  | .x => 0
  | .y => 1
  | .z => 2

/-- The part of the `FDTDGrid` state the voltage-source block mutates:
the material catalogue and the electric-edge `ID` array (modelled as a
function from component index and cell position to a material numID). -/
structure BuildState : Type where
  materials : List SMaterial
  ID : ℕ → ℕ × ℕ × ℕ → ℕ

/-- Embedding of one iteration of the voltage-source material loop
(`gprMax.py` lines 270-299).  For a source with non-zero resistance the
underlying material of the source edge is looked up by `numID`
(`next(x for x in G.materials if x.numID == requirednumID)`; a failed
lookup, which would raise `StopIteration`, is `none`), deep-copied,
renamed, given the next catalogue index and augmented conductivity, its
`average` flag cleared, the `ID` entry redirected to it, and the copy
appended to the catalogue. -/
def process_voltage_source (G : Grid) (st : BuildState) (s : VoltageSource) :
    Option BuildState :=
  if s.resistance ≠ 0 then
    match s.polarisation with
    | .x =>
      let requirednumID := st.ID 0 (s.positionx, s.positiony, s.positionz)
      match st.materials.find? (fun m => m.numID == requirednumID) with
      | none => none
      | some material =>
        let newmaterial : SMaterial :=
          { material with
            mID := material.mID ++ "|VoltageSource_" ++ toString s.resistance
            numID := st.materials.length
            se := material.se + G.dx / (s.resistance * G.dy * G.dz)
            average := false }
        some { materials := st.materials ++ [newmaterial]
               ID := fun c p =>
                 if c = 0 ∧ p = (s.positionx, s.positiony, s.positionz) then
                   newmaterial.numID
                 else st.ID c p }
    | .y =>
      let requirednumID := st.ID 1 (s.positionx, s.positiony, s.positionz)
      match st.materials.find? (fun m => m.numID == requirednumID) with
      | none => none
      | some material =>
        let newmaterial : SMaterial :=
          { material with
            mID := material.mID ++ "|VoltageSource_" ++ toString s.resistance
            numID := st.materials.length
            se := material.se + G.dy / (s.resistance * G.dx * G.dz)
            average := false }
        some { materials := st.materials ++ [newmaterial]
               ID := fun c p =>
                 if c = 1 ∧ p = (s.positionx, s.positiony, s.positionz) then
                   newmaterial.numID
                 else st.ID c p }
    | .z =>
      let requirednumID := st.ID 2 (s.positionx, s.positiony, s.positionz)
      match st.materials.find? (fun m => m.numID == requirednumID) with
      | none => none
      | some material =>
        let newmaterial : SMaterial :=
          { material with
            mID := material.mID ++ "|VoltageSource_" ++ toString s.resistance
            numID := st.materials.length
            se := material.se + G.dz / (s.resistance * G.dx * G.dy)
            average := false }
        some { materials := st.materials ++ [newmaterial]
               ID := fun c p =>
                 if c = 2 ∧ p = (s.positionx, s.positiony, s.positionz) then
                   newmaterial.numID
                 else st.ID c p }
  else some st

/-- Embedding of the whole voltage-source loop (`gprMax.py` lines 269-299):
process each source of `G.voltagesources` in order. -/
def process_voltage_sources (G : Grid) (st : BuildState) :
    List VoltageSource → Option BuildState
  | [] => some st
  | s :: rest => do
      let st1 ← process_voltage_source G st s
      process_voltage_sources G st1 rest

/-- The edge length along the source polarisation axis (`d∥`). -/
def dParallel (G : Grid) : Axis → ℚ
  | .x => G.dx
  | .y => G.dy
  | .z => G.dz

/-- The first transverse edge length (`d⊥1`). -/
def dTransverse1 (G : Grid) : Axis → ℚ
  | .x => G.dy
  | .y => G.dx
  | .z => G.dx

/-- The second transverse edge length (`d⊥2`). -/
def dTransverse2 (G : Grid) : Axis → ℚ
  | .x => G.dz
  | .y => G.dz
  | .z => G.dy

/-- An integer cell position of a source or receiver. -/
structure SrcPos : Type where
  positionx : ℤ
  positiony : ℤ
  positionz : ℤ
deriving DecidableEq, Repr

/-- The per-run stepping state: the source/receiver step sizes and the
position lists `hertziandipoles`, `magneticdipoles`, `voltagesources`,
`rxs` held by the `FDTDGrid`. -/
structure StepCfg : Type where
  srcstepx : ℤ
  srcstepy : ℤ
  srcstepz : ℤ
  rxstepx : ℤ
  rxstepy : ℤ
  rxstepz : ℤ
  hertziandipoles : List SrcPos
  magneticdipoles : List SrcPos
  voltagesources : List SrcPos
  rxs : List SrcPos
deriving DecidableEq, Repr

/-- Displace one position by `(modelrun - 1) * step` along each axis. -/
def displace (modelrun : ℤ) (sx sy sz : ℤ) (p : SrcPos) : SrcPos :=
  { positionx := p.positionx + (modelrun - 1) * sx
    positiony := p.positiony + (modelrun - 1) * sy
    positionz := p.positionz + (modelrun - 1) * sz }

/-- Embedding of the source/receiver position adjustment
(`gprMax.py` lines 363-373): if any of the three source steps is
positive, every source in `itertools.chain(hertziandipoles,
magneticdipoles, voltagesources)` is displaced by `(modelrun - 1) * step`
cells along each axis; likewise for receivers with the receiver steps. -/
def adjust_positions (modelrun : ℤ) (G : StepCfg) : StepCfg :=
  let G1 :=
    if G.srcstepx > 0 ∨ G.srcstepy > 0 ∨ G.srcstepz > 0 then
      { G with
        hertziandipoles :=
          G.hertziandipoles.map (displace modelrun G.srcstepx G.srcstepy G.srcstepz)
        magneticdipoles :=
          G.magneticdipoles.map (displace modelrun G.srcstepx G.srcstepy G.srcstepz)
        voltagesources :=
          G.voltagesources.map (displace modelrun G.srcstepx G.srcstepy G.srcstepz) }
    else G
  if G1.rxstepx > 0 ∨ G1.rxstepy > 0 ∨ G1.rxstepz > 0 then
    { G1 with
      rxs := G1.rxs.map (displace modelrun G1.rxstepx G1.rxstepy G1.rxstepz) }
  else G1

/-- The dispersive-update variants of the electric-field kernels. -/
inductive PoleKind : Type
  | onePole
  | multiPole
deriving DecidableEq, Repr

/-- The observable phases executed by the main FDTD loop
(`gprMax.py` lines 382-449).  Source-update events carry the index of the
source within its list and the `abstime` value passed to `update_fields`;
`instabilityAbort` is the phase the specification's `NumericalInstability`
failure mode would correspond to. -/
inductive Event : Type
  | writeOutput (timestep : ℕ)
  | writeSnapshot (time : ℕ)
  | eUpdateStd (a : Axis)
  | eDispA (v : PoleKind) (a : Axis)
  | pmlElectric
  | voltageSrc (i : ℕ) (abstime : ℚ)
  | hertzianSrc (i : ℕ) (abstime : ℚ)
  | eDispB (v : PoleKind) (a : Axis)
  | hUpdate (a : Axis)
  | pmlMagnetic
  | magneticSrc (i : ℕ) (abstime : ℚ)
  | instabilityAbort
deriving DecidableEq, Repr

/-- The data of the grid that the scheduler's control flow reads: the
iteration count, timestep `dt`, the catalogue-wide `Material.maxpoles`,
the scheduled times of the snapshots, and the lengths of the voltage
source, Hertzian dipole and magnetic dipole lists. -/
structure LoopCfg : Type where
  iterations : ℕ
  dt : ℚ
  maxpoles : ℕ
  snapshotTimes : List ℕ
  nvolt : ℕ
  nhertz : ℕ
  nmag : ℕ
deriving DecidableEq, Repr

/-- Embedding of the electric-field pass-A dispatch
(`gprMax.py` lines 396-409): `if Material.maxpoles == 1` the one-pole
dispersive kernels, `elif Material.maxpoles > 1` the multipole kernels,
`else` the standard non-dispersive kernels, for Ex, Ey, Ez in order. -/
def eUpdatePassA (maxpoles : ℕ) : List Event :=
  if maxpoles = 1 then
    [Event.eDispA .onePole .x, Event.eDispA .onePole .y, Event.eDispA .onePole .z]
  else if 1 < maxpoles then
    [Event.eDispA .multiPole .x, Event.eDispA .multiPole .y, Event.eDispA .multiPole .z]
  else
    [Event.eUpdateStd .x, Event.eUpdateStd .y, Event.eUpdateStd .z]

/-- Embedding of the electric-field pass-B dispatch
(`gprMax.py` lines 422-430): the second dispersive pass, absent when
`Material.maxpoles` is zero. -/
def eUpdatePassB (maxpoles : ℕ) : List Event :=
  if maxpoles = 1 then
    [Event.eDispB .onePole .x, Event.eDispB .onePole .y, Event.eDispB .onePole .z]
  else if 1 < maxpoles then
    [Event.eDispB .multiPole .x, Event.eDispB .multiPole .y, Event.eDispB .multiPole .z]
  else []

/-- The event trace of one iteration of the main FDTD loop
(`gprMax.py` lines 383-449), entered with loop counter `timestep` and
absolute time `abstime`: receiver output; snapshots whose `time` equals
`timestep + 1`; electric pass A; PML electric correction; voltage
sources then Hertzian dipoles at the current `abstime`;
dispersive pass B; (`abstime += 0.5 * G.dt`); the magnetic-field update;
PML magnetic correction; magnetic dipoles at `abstime + dt/2`;
(`abstime += 0.5 * G.dt` again). -/
def stepEvents (cfg : LoopCfg) (timestep : ℕ) (abstime : ℚ) : List Event :=
  [Event.writeOutput timestep]
    ++ (cfg.snapshotTimes.filter (fun t => t == timestep + 1)).map Event.writeSnapshot
    ++ eUpdatePassA cfg.maxpoles
    ++ [Event.pmlElectric]
    ++ (List.range cfg.nvolt).map (fun i => Event.voltageSrc i abstime)
    ++ (List.range cfg.nhertz).map (fun i => Event.hertzianSrc i abstime)
    ++ eUpdatePassB cfg.maxpoles
    ++ [Event.hUpdate .x, Event.hUpdate .y, Event.hUpdate .z]
    ++ [Event.pmlMagnetic]
    ++ (List.range cfg.nmag).map (fun i => Event.magneticSrc i (abstime + cfg.dt / 2))

/-- The trace of the remaining `fuel` iterations of the loop, starting at
loop counter `timestep` with accumulator `abstime`; across one iteration
`abstime` grows by `dt` (two `+= 0.5 * G.dt` increments). -/
def loopFrom (cfg : LoopCfg) : ℕ → ℚ → ℕ → List Event
  | _, _, 0 => []
  | timestep, abstime, fuel + 1 =>
      stepEvents cfg timestep abstime
        ++ loopFrom cfg (timestep + 1) (abstime + cfg.dt) fuel

/-- The full event trace of the main FDTD loop of `run_model`
(`gprMax.py` lines 378-449): `abstime = 0`, then
`for timestep in range(G.iterations)`. -/
def run_model_events (cfg : LoopCfg) : List Event :=
  loopFrom cfg 0 0 cfg.iterations

/-- Is an event a receiver-output write? -/
def isOutput : Event → Bool
  | .writeOutput _ => true
  | _ => false

/-- The waveform types that `dispersion_check` handles without a Fourier
analysis (`grid.py` lines 161-165); waveform types that enter the FFT
branch (floating-point signal processing) are outside this embedding. -/
inductive WaveKind : Type
  | sine
  | contsine
  | impulse
  | zero
deriving DecidableEq, Repr

/-- A waveform record: its type and its centre frequency. -/
structure Waveform : Type where
  kind : WaveKind
  freq : ℚ
deriving DecidableEq, Repr

/-- The speed of light `c` from `gprMax/constants.py` (a module not under
verification; its value, 299792458 m/s, is exactly representable). -/
noncomputable def lightspeed : ℝ := 299792458

/-- The maximum of a nonempty list given as head and tail, as Python's
`max` computes it. -/
def listMax (x : ℚ) (xs : List ℚ) : ℚ :=
  xs.foldl max x

/-- The contribution of one waveform to the `maxfreqs` list of
`dispersion_check` (`grid.py` lines 159-165): `4 * freq` for
`sine`/`contsine`, nothing for `impulse`/`zero`. -/
def waveformMaxfreq (w : Waveform) : Option ℚ :=
  match w.kind with
  | .sine => some (4 * w.freq)
  | .contsine => some (4 * w.freq)
  | .impulse => none
  | .zero => none

/-- Embedding of `grid.dispersion_check` (`grid.py` lines 144-213) on the
non-FFT waveform types: collect `4 * freq` for `sine`/`contsine` waveforms,
skip `impulse`/`zero`; if the collected list is empty return `False`
(modelled `Except.ok none`); otherwise take `maxfreq` as its maximum,
`maxer` as the maximum relative permittivity over the materials (Python's
`max` on an empty list raises, modelled `Except.error ()`), and return
`((c / sqrt maxer) / maxfreq) / resolvedsteps` with `resolvedsteps = 10`. -/
noncomputable def dispersion_check (waveforms : List Waveform)
    (materials : List SMaterial) : Except Unit (Option ℝ) :=
  let maxfreqs := waveforms.filterMap waveformMaxfreq
  match maxfreqs with
  | [] => Except.ok none
  | f :: fs =>
    let maxfreq := listMax f fs
    match materials.map (fun m => m.er) with
    | [] => Except.error ()
    | e :: es =>
      let maxer := listMax e es
      let minvelocity : ℝ := lightspeed / Real.sqrt (maxer : ℚ)
      let minwavelength : ℝ := minvelocity / (maxfreq : ℚ)
      Except.ok (some (minwavelength / 10))

/-! ### Witness inputs -/

/-- A sample magnetic-field array for evaluating the current components. -/
def hSampleA : ℕ → ℕ → ℕ → ℚ := fun i j k => (i : ℚ) + 2 * j + 4 * k

/-- A second sample magnetic-field array. -/
def hSampleB : ℕ → ℕ → ℕ → ℚ := fun i j k => (i : ℚ) * ((j : ℚ) + 1) * ((k : ℚ) + 2)

/-- A sample grid for concrete evaluations. -/
def wGrid : Grid := ⟨10, 10, 10, 1 / 2, 1 / 4, 1 / 5⟩

/-- A sample material catalogue state before voltage-source processing. -/
def wMat : SMaterial := ⟨"free_space", 1, 1, 0, 1, 0, true⟩

/-- A sample build state whose electric-edge `ID` entries all reference
material 1. -/
def wState : BuildState := ⟨[wMat], fun _ _ => 1⟩

/-- A sample 50-Ohm x-polarised voltage source. -/
def wSource : VoltageSource := ⟨Axis.x, 2, 3, 4, 50⟩

/-- A sample loop configuration with no dispersive materials: two
iterations, one snapshot, one source of each electric/magnetic kind. -/
def wCfg0 : LoopCfg := ⟨2, 1, 0, [1], 1, 1, 1⟩

/-- A sample loop configuration with `maxpoles = 1`. -/
def wCfg1 : LoopCfg := ⟨1, 1, 1, [], 1, 1, 1⟩

/-- A sample loop configuration with `maxpoles = 2`. -/
def wCfg2 : LoopCfg := ⟨1, 1, 2, [], 0, 0, 0⟩

/-! ### Theorems -/

/-- `round_value` is the identity on integers: an integer rational has
fractional part `0 < 1/2`, so the floor is returned. -/
theorem round_value_intCast (n : ℤ) : round_value (n : ℚ) = n := by
  unfold round_value
  norm_num

/-- C9: for every axis `α` with positive edge length `dα` and every
integer grid index `x`, converting the metric coordinate `x · dα` back to
a cell index via `calculate_coord` (banker's rounding of `(x · dα) / dα`)
yields exactly `x`: the metres-to-index conversion is a left inverse of
index-to-metres on staggered grid nodes. -/
theorem calculate_coord_left_inverse (G : Grid) (a : Axis) (x : ℤ)
    (hd : 0 < dval G a) :
    calculate_coord G a ((x : ℚ) * dval G a) = x := by
  unfold calculate_coord
  rw [mul_div_assoc, div_self hd.ne', mul_one]
  exact round_value_intCast x

/-- Witness for `calculate_coord_left_inverse` at `dα = 1/2`, `x = 7`. -/
theorem calculate_coord_left_inverse_w :
    0 < dval wGrid Axis.x ∧
      calculate_coord wGrid Axis.x ((7 : ℤ) * dval wGrid Axis.x) = 7 :=
  ⟨by norm_num [dval, wGrid], calculate_coord_left_inverse wGrid Axis.x 7 (by norm_num [dval, wGrid])⟩

/-- C8: for every axis `α` and integer coordinate `co`, `within_bounds`
raises the out-of-bounds error for that axis if and only if `co < 0` or
`co > nα`; for `co ∈ [0, nα]` it returns without error (it is a pure
check and modifies nothing). -/
theorem within_bounds_spec (G : Grid) (a : Axis) (v : ℤ) :
    (within_bounds G [(a, v)] = Except.error a ↔ v < 0 ∨ nval G a < v) ∧
      (0 ≤ v → v ≤ nval G a → within_bounds G [(a, v)] = Except.ok ()) := by
  constructor
  · unfold within_bounds
    split_ifs with h
    · simp [h]
    · simp [within_bounds, h]
  · intro h1 h2
    unfold within_bounds
    rw [if_neg (by push_neg; exact ⟨h1, h2⟩)]
    rfl

/-- Witness for `within_bounds_spec`: on a `10 × 10 × 10` grid,
coordinate `11` on the x axis is rejected and coordinate `3` accepted. -/
theorem within_bounds_spec_w :
    within_bounds wGrid [(Axis.x, 11)] = Except.error Axis.x ∧
      within_bounds wGrid [(Axis.x, 3)] = Except.ok () :=
  ⟨(within_bounds_spec wGrid Axis.x 11).1.mpr (Or.inr (by norm_num [nval, wGrid])),
   (within_bounds_spec wGrid Axis.x 3).2 (by norm_num) (by norm_num [nval, wGrid])⟩

/-- C4: each current component is exactly zero at a boundary position in
either of its two transverse coordinates, and otherwise equals the
line integral of the surrounding four magnetic-field samples around the
dual face scaled by the cell edge lengths. -/
theorem current_component_spec (x y z : ℕ) (Hx Hy Hz : ℕ → ℕ → ℕ → ℚ)
    (G : Grid) :
    ((y = 0 ∨ z = 0) → Ix x y z Hy Hz G = 0) ∧
      (y ≠ 0 → z ≠ 0 →
        Ix x y z Hy Hz G =
          G.dy * (Hy x y (z - 1) - Hy x y z) + G.dz * (Hz x y z - Hz x (y - 1) z)) ∧
      ((x = 0 ∨ z = 0) → Iy x y z Hx Hz G = 0) ∧
      (x ≠ 0 → z ≠ 0 →
        Iy x y z Hx Hz G =
          G.dx * (Hx x y z - Hx x y (z - 1)) + G.dz * (Hz (x - 1) y z - Hz x y z)) ∧
      ((x = 0 ∨ y = 0) → Iz x y z Hx Hy G = 0) ∧
      (x ≠ 0 → y ≠ 0 →
        Iz x y z Hx Hy G =
          G.dx * (Hx x (y - 1) z - Hx x y z) + G.dy * (Hy x y z - Hy (x - 1) y z)) := by
  refine ⟨fun h => ?_, fun h1 h2 => ?_, fun h => ?_, fun h1 h2 => ?_,
    fun h => ?_, fun h1 h2 => ?_⟩
  · exact if_pos h
  · exact if_neg (not_or.mpr ⟨h1, h2⟩)
  · exact if_pos h
  · exact if_neg (not_or.mpr ⟨h1, h2⟩)
  · exact if_pos h
  · exact if_neg (not_or.mpr ⟨h1, h2⟩)

/-- Witness for `current_component_spec`: `Ix` vanishes on the `y = 0`
boundary and `Iz` takes the line-integral value at the interior
position `(1, 1, 1)`. -/
theorem current_component_spec_w :
    Ix 1 0 1 hSampleB hSampleA wGrid = 0 ∧
      Iz 1 1 1 hSampleA hSampleB wGrid =
        wGrid.dx * (hSampleA 1 0 1 - hSampleA 1 1 1) +
          wGrid.dy * (hSampleB 1 1 1 - hSampleB 0 1 1) :=
  ⟨(current_component_spec 1 0 1 hSampleA hSampleB hSampleA wGrid).1 (Or.inl rfl),
   (current_component_spec 1 1 1 hSampleA hSampleB hSampleA wGrid).2.2.2.2.2
     (by norm_num) (by norm_num)⟩

/-- C7 counterexample: the geometry arrays are initialised to catalogue
index 1 — the free-space index per the builder's own documentation — and
not to index 0, so the claim that the referenced free-space material has
catalogue index 0 fails on the initialised arrays. -/
theorem geometry_init_cex :
    ID_init 1 1 1 0 0 0 0 = free_space_numID ∧
      solid_init 1 1 1 0 0 0 = free_space_numID ∧
      free_space_numID ≠ 0 ∧ ID_init 1 1 1 0 0 0 0 ≠ 0 :=
  ⟨rfl, rfl, by decide, by decide⟩

/-- C7 amended: immediately after geometry-array initialisation, every
entry of the `solid` array and of the `ID` array equals the free-space
material's catalogue index, which is 1 (not 0). -/
theorem geometry_init_free_space (nx ny nz : ℕ) (comp : Fin 6)
    (i : Fin (nx + 1)) (j : Fin (ny + 1)) (k : Fin (nz + 1)) :
    solid_init nx ny nz i j k = free_space_numID ∧
      ID_init nx ny nz comp i j k = free_space_numID ∧
      free_space_numID = 1 :=
  ⟨rfl, rfl, rfl⟩

/-- C5: for every model run number `k ≥ 1`, if any of the three source
steps is positive then every source position (Hertzian dipoles, magnetic
dipoles and voltage sources alike) is displaced by `(k - 1) · srcstepα`
cells along each axis `α`, and the positions are unchanged otherwise;
likewise for receivers with the receiver steps. -/
theorem source_receiver_stepping (G : StepCfg) (k : ℤ) (_hk : 1 ≤ k) :
    ((G.srcstepx > 0 ∨ G.srcstepy > 0 ∨ G.srcstepz > 0) →
        (adjust_positions k G).hertziandipoles =
            G.hertziandipoles.map (fun p =>
              ⟨p.positionx + (k - 1) * G.srcstepx, p.positiony + (k - 1) * G.srcstepy,
                p.positionz + (k - 1) * G.srcstepz⟩) ∧
          (adjust_positions k G).magneticdipoles =
            G.magneticdipoles.map (fun p =>
              ⟨p.positionx + (k - 1) * G.srcstepx, p.positiony + (k - 1) * G.srcstepy,
                p.positionz + (k - 1) * G.srcstepz⟩) ∧
          (adjust_positions k G).voltagesources =
            G.voltagesources.map (fun p =>
              ⟨p.positionx + (k - 1) * G.srcstepx, p.positiony + (k - 1) * G.srcstepy,
                p.positionz + (k - 1) * G.srcstepz⟩)) ∧
      (¬(G.srcstepx > 0 ∨ G.srcstepy > 0 ∨ G.srcstepz > 0) →
        (adjust_positions k G).hertziandipoles = G.hertziandipoles ∧
          (adjust_positions k G).magneticdipoles = G.magneticdipoles ∧
          (adjust_positions k G).voltagesources = G.voltagesources) ∧
      ((G.rxstepx > 0 ∨ G.rxstepy > 0 ∨ G.rxstepz > 0) →
        (adjust_positions k G).rxs =
          G.rxs.map (fun p =>
            ⟨p.positionx + (k - 1) * G.rxstepx, p.positiony + (k - 1) * G.rxstepy,
              p.positionz + (k - 1) * G.rxstepz⟩)) ∧
      (¬(G.rxstepx > 0 ∨ G.rxstepy > 0 ∨ G.rxstepz > 0) →
        (adjust_positions k G).rxs = G.rxs) := by
  unfold adjust_positions
  refine ⟨fun hs => ⟨?_, ?_, ?_⟩, fun hs => ⟨?_, ?_, ?_⟩, fun hr => ?_, fun hr => ?_⟩ <;>
    dsimp only <;> split_ifs <;> rfl

/-- Witness for `source_receiver_stepping`: run `k = 3` with
`srcstepx = 1` displaces every source, while zero receiver steps leave
the receivers in place. -/
theorem source_receiver_stepping_w :
    (adjust_positions 3 ⟨1, 0, 0, 0, 0, 0, [⟨5, 5, 5⟩], [], [⟨2, 2, 2⟩], [⟨7, 7, 7⟩]⟩).hertziandipoles =
        [⟨5, 5, 5⟩].map (fun p : SrcPos =>
          (⟨p.positionx + (3 - 1) * 1, p.positiony + (3 - 1) * 0,
            p.positionz + (3 - 1) * 0⟩ : SrcPos)) ∧
      (adjust_positions 3 ⟨1, 0, 0, 0, 0, 0, [⟨5, 5, 5⟩], [], [⟨2, 2, 2⟩], [⟨7, 7, 7⟩]⟩).rxs =
        [⟨7, 7, 7⟩] :=
  ⟨((source_receiver_stepping ⟨1, 0, 0, 0, 0, 0, [⟨5, 5, 5⟩], [], [⟨2, 2, 2⟩], [⟨7, 7, 7⟩]⟩ 3
      (by norm_num)).1 (Or.inl (by norm_num))).1,
   (source_receiver_stepping ⟨1, 0, 0, 0, 0, 0, [⟨5, 5, 5⟩], [], [⟨2, 2, 2⟩], [⟨7, 7, 7⟩]⟩ 3
      (by norm_num)).2.2.2 (by norm_num)⟩

/-- C3: processing a voltage source with non-zero resistance `R` appends
to the catalogue a copy of the material previously governing the source
edge whose electric conductivity is increased by exactly
`d∥ / (R · d⊥1 · d⊥2)`, whose `average` flag is false and whose `numID`
is the catalogue length at creation time, and redirects the `ID` entry
for the polarisation component at the source position to that `numID`. -/
theorem voltage_source_material_spec (G : Grid) (st : BuildState)
    (s : VoltageSource) (m : SMaterial) (hr : s.resistance ≠ 0)
    (hf : st.materials.find?
        (fun x => x.numID == st.ID (componentIndex s.polarisation)
          (s.positionx, s.positiony, s.positionz)) = some m) :
    process_voltage_source G st s = some
      { materials := st.materials ++
          [{ m with
              mID := m.mID ++ "|VoltageSource_" ++ toString s.resistance
              numID := st.materials.length
              se := m.se + dParallel G s.polarisation /
                (s.resistance * dTransverse1 G s.polarisation *
                  dTransverse2 G s.polarisation)
              average := false }]
        ID := fun c p =>
          if c = componentIndex s.polarisation ∧
              p = (s.positionx, s.positiony, s.positionz) then
            st.materials.length
          else st.ID c p } := by
  obtain ⟨pol, px, py, pz, R⟩ := s
  cases pol <;>
    simp_all [process_voltage_source, componentIndex, dParallel,
      dTransverse1, dTransverse2]

/-- Witness for `voltage_source_material_spec`: a 50-Ohm x-polarised
source on the free-space material. -/
theorem voltage_source_material_spec_w :
    wSource.resistance ≠ 0 ∧
      process_voltage_source wGrid wState wSource = some
        { materials := wState.materials ++
            [{ wMat with
                mID := wMat.mID ++ "|VoltageSource_" ++ toString wSource.resistance
                numID := wState.materials.length
                se := wMat.se + dParallel wGrid wSource.polarisation /
                  (wSource.resistance * dTransverse1 wGrid wSource.polarisation *
                    dTransverse2 wGrid wSource.polarisation)
                average := false }]
          ID := fun c p =>
            if c = componentIndex wSource.polarisation ∧
                p = (wSource.positionx, wSource.positiony, wSource.positionz) then
              wState.materials.length
            else wState.ID c p } :=
  ⟨by norm_num [wSource],
   voltage_source_material_spec wGrid wState wSource wMat (by norm_num [wSource]) rfl⟩

/-- Unrolling the stepping loop: starting at loop counter `k` with
`abstime = k · dt`, the trace of `m` further iterations is the
concatenation of the per-step traces, step `k + j` entered at absolute
time `(k + j) · dt`. -/
theorem loopFrom_eq (cfg : LoopCfg) :
    ∀ (m k : ℕ) (t : ℚ), t = (k : ℚ) * cfg.dt →
      loopFrom cfg k t m =
        (List.range m).flatMap
          (fun j => stepEvents cfg (k + j) (((k + j : ℕ) : ℚ) * cfg.dt)) := by
  intro m
  induction m with
  | zero => intro k t ht; simp [loopFrom]
  | succ m ih =>
      intro k t ht
      have h1 : loopFrom cfg k t (m + 1) =
          stepEvents cfg k t ++ loopFrom cfg (k + 1) (t + cfg.dt) m := rfl
      rw [h1, ih (k + 1) (t + cfg.dt) (by rw [ht]; push_cast; ring)]
      rw [List.range_succ_eq_map, List.flatMap_cons, List.flatMap_map]
      congr 1
      · rw [ht]; norm_num
      · congr 1
        funext j
        have hj : k + 1 + j = k + (j + 1) := by omega
        simp only [Nat.succ_eq_add_one, hj]

/-- C1: the stepper executes, for every timestep `n`, exactly the sequence
receiver output for step `n`; snapshots scheduled for `n + 1`; electric
pass A (dispersive-aware); PML electric correction; voltage sources then
Hertzian dipoles at `abstime = n · dt`; dispersive pass B; magnetic-field
update; PML magnetic correction; magnetic dipoles at
`abstime = (n + 1/2) · dt` — and nothing else, in no other order. -/
theorem fdtd_loop_schedule (cfg : LoopCfg) :
    run_model_events cfg =
      (List.range cfg.iterations).flatMap (fun n =>
        [Event.writeOutput n]
          ++ (cfg.snapshotTimes.filter (fun t => t == n + 1)).map Event.writeSnapshot
          ++ eUpdatePassA cfg.maxpoles
          ++ [Event.pmlElectric]
          ++ (List.range cfg.nvolt).map (fun i => Event.voltageSrc i ((n : ℚ) * cfg.dt))
          ++ (List.range cfg.nhertz).map (fun i => Event.hertzianSrc i ((n : ℚ) * cfg.dt))
          ++ eUpdatePassB cfg.maxpoles
          ++ [Event.hUpdate Axis.x, Event.hUpdate Axis.y, Event.hUpdate Axis.z]
          ++ [Event.pmlMagnetic]
          ++ (List.range cfg.nmag).map (fun i =>
              Event.magneticSrc i (((n : ℚ) + 1 / 2) * cfg.dt))) := by
  rw [run_model_events, loopFrom_eq cfg cfg.iterations 0 0 (by norm_num)]
  congr 1
  funext n
  simp only [Nat.zero_add]
  unfold stepEvents
  have hmag : (fun i => Event.magneticSrc i ((n : ℚ) * cfg.dt + cfg.dt / 2)) =
      fun i => Event.magneticSrc i (((n : ℚ) + 1 / 2) * cfg.dt) := by
    funext i
    congr 1
    ring
  rw [hmag]

/-- No phase of a single loop iteration is an instability abort. -/
theorem abort_not_mem_stepEvents (cfg : LoopCfg) (ts : ℕ) (t : ℚ) :
    Event.instabilityAbort ∉ stepEvents cfg ts t := by
  unfold stepEvents eUpdatePassA eUpdatePassB
  split_ifs <;> simp

/-- Each loop iteration writes the receiver output exactly once. -/
theorem countP_isOutput_stepEvents (cfg : LoopCfg) (ts : ℕ) (t : ℚ) :
    (stepEvents cfg ts t).countP isOutput = 1 := by
  unfold stepEvents eUpdatePassA eUpdatePassB
  split_ifs <;>
    simp [List.countP_append, List.countP_map, List.countP_cons, isOutput,
      Function.comp]

/-- The tail-segment trace never contains an instability abort. -/
theorem abort_not_mem_loopFrom (cfg : LoopCfg) :
    ∀ (m k : ℕ) (t : ℚ), Event.instabilityAbort ∉ loopFrom cfg k t m := by
  intro m
  induction m with
  | zero => intro k t; simp [loopFrom]
  | succ m ih =>
      intro k t
      have h1 : loopFrom cfg k t (m + 1) =
          stepEvents cfg k t ++ loopFrom cfg (k + 1) (t + cfg.dt) m := rfl
      rw [h1, List.mem_append]
      push_neg
      exact ⟨abort_not_mem_stepEvents cfg k t, ih (k + 1) (t + cfg.dt)⟩

/-- The tail-segment trace contains one receiver-output write per
remaining iteration. -/
theorem countP_isOutput_loopFrom (cfg : LoopCfg) :
    ∀ (m k : ℕ) (t : ℚ), (loopFrom cfg k t m).countP isOutput = m := by
  intro m
  induction m with
  | zero => intro k t; simp [loopFrom]
  | succ m ih =>
      intro k t
      have h1 : loopFrom cfg k t (m + 1) =
          stepEvents cfg k t ++ loopFrom cfg (k + 1) (t + cfg.dt) m := rfl
      rw [h1, List.countP_append, countP_isOutput_stepEvents cfg k t,
        ih (k + 1) (t + cfg.dt)]
      omega

/-- C2 amended: the main FDTD loop performs no NaN/Inf field check — its
trace contains no instability abort and it completes all `iterations`
steps (one receiver-output write per step) regardless of the field
values, so no `NumericalInstability` error is ever raised. -/
theorem loop_has_no_instability_check (cfg : LoopCfg) :
    Event.instabilityAbort ∉ run_model_events cfg ∧
      (run_model_events cfg).countP isOutput = cfg.iterations :=
  ⟨abort_not_mem_loopFrom cfg cfg.iterations 0 0,
   countP_isOutput_loopFrom cfg cfg.iterations 0 0⟩

/-- C2 counterexample: a concrete two-iteration run executes both steps to
completion and its trace contains no instability abort, so the claimed
end-of-step NaN/Inf abort does not exist in the stepper. -/
theorem instability_check_cex :
    Event.instabilityAbort ∉ run_model_events wCfg0 ∧
      (run_model_events wCfg0).countP isOutput = 2 :=
  ⟨abort_not_mem_loopFrom wCfg0 2 0 0, countP_isOutput_loopFrom wCfg0 2 0 0⟩

/-- C6: the electric-field update path is selected solely by `maxpoles`:
`maxpoles = 0` runs only the standard stencils and no dispersive pass
occurs anywhere in the step; `maxpoles = 1` runs the one-pole pass A and
pass B variants; `maxpoles > 1` runs the multipole variants. -/
theorem dispersive_dispatch_spec (cfg : LoopCfg) (ts : ℕ) (t : ℚ) :
    (cfg.maxpoles = 0 →
        eUpdatePassA cfg.maxpoles =
            [Event.eUpdateStd Axis.x, Event.eUpdateStd Axis.y, Event.eUpdateStd Axis.z] ∧
          eUpdatePassB cfg.maxpoles = [] ∧
          ∀ v a, Event.eDispA v a ∉ stepEvents cfg ts t ∧
            Event.eDispB v a ∉ stepEvents cfg ts t) ∧
      (cfg.maxpoles = 1 →
        eUpdatePassA cfg.maxpoles =
            [Event.eDispA PoleKind.onePole Axis.x, Event.eDispA PoleKind.onePole Axis.y,
              Event.eDispA PoleKind.onePole Axis.z] ∧
          eUpdatePassB cfg.maxpoles =
            [Event.eDispB PoleKind.onePole Axis.x, Event.eDispB PoleKind.onePole Axis.y,
              Event.eDispB PoleKind.onePole Axis.z] ∧
          ∀ a, Event.eUpdateStd a ∉ stepEvents cfg ts t) ∧
      (1 < cfg.maxpoles →
        eUpdatePassA cfg.maxpoles =
            [Event.eDispA PoleKind.multiPole Axis.x, Event.eDispA PoleKind.multiPole Axis.y,
              Event.eDispA PoleKind.multiPole Axis.z] ∧
          eUpdatePassB cfg.maxpoles =
            [Event.eDispB PoleKind.multiPole Axis.x, Event.eDispB PoleKind.multiPole Axis.y,
              Event.eDispB PoleKind.multiPole Axis.z] ∧
          ∀ a, Event.eUpdateStd a ∉ stepEvents cfg ts t) := by
  refine ⟨fun h0 => ⟨?_, ?_, fun v a => ⟨?_, ?_⟩⟩, fun h1 => ⟨?_, ?_, fun a => ?_⟩,
    fun h2 => ?_⟩
  · simp [eUpdatePassA, h0]
  · simp [eUpdatePassB, h0]
  · simp [stepEvents, eUpdatePassA, eUpdatePassB, h0]
  · simp [stepEvents, eUpdatePassA, eUpdatePassB, h0]
  · simp [eUpdatePassA, h1]
  · simp [eUpdatePassB, h1]
  · simp [stepEvents, eUpdatePassA, eUpdatePassB, h1]
  · have hne : cfg.maxpoles ≠ 1 := by omega
    refine ⟨?_, ?_, fun a => ?_⟩ <;>
      simp [stepEvents, eUpdatePassA, eUpdatePassB, hne, h2]

/-- Witness for `dispersive_dispatch_spec` at `maxpoles = 0`, `1`, `2`. -/
theorem dispersive_dispatch_spec_w :
    eUpdatePassA 0 =
        [Event.eUpdateStd Axis.x, Event.eUpdateStd Axis.y, Event.eUpdateStd Axis.z] ∧
      eUpdatePassB 1 =
        [Event.eDispB PoleKind.onePole Axis.x, Event.eDispB PoleKind.onePole Axis.y,
          Event.eDispB PoleKind.onePole Axis.z] ∧
      eUpdatePassA 2 =
        [Event.eDispA PoleKind.multiPole Axis.x, Event.eDispA PoleKind.multiPole Axis.y,
          Event.eDispA PoleKind.multiPole Axis.z] ∧
      Event.eUpdateStd Axis.x ∉ stepEvents wCfg1 0 0 :=
  ⟨((dispersive_dispatch_spec wCfg0 0 0).1 rfl).1,
   ((dispersive_dispatch_spec wCfg1 0 0).2.1 rfl).2.1,
   ((dispersive_dispatch_spec wCfg2 0 0).2.2 (by norm_num [wCfg2])).1,
   ((dispersive_dispatch_spec wCfg1 0 0).2.1 rfl).2.2 Axis.x⟩

/-- A lower bound on the head of a nonempty list bounds its maximum. -/
theorem listMax_lower (b x : ℚ) (xs : List ℚ) (h : b ≤ x) : b ≤ listMax x xs := by
  induction xs generalizing x with
  | nil => simpa [listMax] using h
  | cons y ys ih =>
      rw [listMax, List.foldl_cons]
      exact ih (max x y) (h.trans (le_max_left x y))

/-- Waveform lists of only `impulse`/`zero` types contribute no maximum
frequencies. -/
theorem filterMap_maxfreq_nil (ws : List Waveform)
    (h : ∀ w ∈ ws, w.kind = WaveKind.impulse ∨ w.kind = WaveKind.zero) :
    ws.filterMap waveformMaxfreq = [] := by
  induction ws with
  | nil => rfl
  | cons w ws ih =>
      rw [List.filterMap_cons]
      rcases h w (List.mem_cons_self w ws) with h1 | h1 <;>
        simp [waveformMaxfreq, h1, ih (fun u hu => h u (List.mem_cons_of_mem w hu))]

/-- Waveform lists of only `sine`/`contsine` types contribute `4 · freq`
for every entry. -/
theorem filterMap_maxfreq_map (ws : List Waveform)
    (h : ∀ w ∈ ws, w.kind = WaveKind.sine ∨ w.kind = WaveKind.contsine) :
    ws.filterMap waveformMaxfreq = ws.map (fun u => 4 * u.freq) := by
  induction ws with
  | nil => rfl
  | cons w ws ih =>
      rw [List.filterMap_cons, List.map_cons]
      rcases h w (List.mem_cons_self w ws) with h1 | h1 <;>
        simp [waveformMaxfreq, h1, ih (fun u hu => h u (List.mem_cons_of_mem w hu))]

/-- The embedded speed of light is positive. -/
theorem lightspeed_pos : (0 : ℝ) < lightspeed := by
  unfold lightspeed
  norm_num

/-- C10: `dispersion_check` returns `False` when the waveform list is
empty or holds only `impulse`/`zero` waveforms; when every waveform is a
`sine`/`contsine` (at least one present) it returns the positive
resolution `(c / √(max εr)) / (10 · max(4 · f))`. -/
theorem dispersion_check_spec :
    (∀ materials, dispersion_check [] materials = Except.ok none) ∧
      (∀ waveforms materials,
        (∀ w ∈ waveforms, w.kind = WaveKind.impulse ∨ w.kind = WaveKind.zero) →
        dispersion_check waveforms materials = Except.ok none) ∧
      (∀ (w : Waveform) (ws : List Waveform) (m : SMaterial) (ms : List SMaterial),
        (∀ u ∈ w :: ws, u.kind = WaveKind.sine ∨ u.kind = WaveKind.contsine) →
        (∀ u ∈ w :: ws, 0 < u.freq) →
        (∀ x ∈ m :: ms, 1 ≤ x.er) →
        dispersion_check (w :: ws) (m :: ms) =
            Except.ok (some (lightspeed /
                Real.sqrt ((listMax m.er (ms.map (fun x => x.er)) : ℚ)) /
              (10 * ((listMax (4 * w.freq) (ws.map (fun u => 4 * u.freq)) : ℚ))))) ∧
          0 < lightspeed /
              Real.sqrt ((listMax m.er (ms.map (fun x => x.er)) : ℚ)) /
            (10 * ((listMax (4 * w.freq) (ws.map (fun u => 4 * u.freq)) : ℚ)))) := by
  refine ⟨fun materials => rfl, fun waveforms materials h => ?_,
    fun w ws m ms hkind hfreq her => ?_⟩
  · unfold dispersion_check
    rw [filterMap_maxfreq_nil waveforms h]
  · have hfm := filterMap_maxfreq_map (w :: ws) hkind
    rw [List.map_cons] at hfm
    have hMpos : (0 : ℝ) <
        Real.sqrt ((listMax m.er (ms.map fun x => x.er) : ℚ)) := by
      apply Real.sqrt_pos.mpr
      have h1 : (0 : ℚ) < listMax m.er (ms.map fun x => x.er) :=
        lt_of_lt_of_le one_pos (listMax_lower 1 m.er _ (her m (List.mem_cons_self m ms)))
      exact_mod_cast h1
    have hF : (0 : ℚ) < listMax (4 * w.freq) (ws.map fun u => 4 * u.freq) := by
      have h4 : (0 : ℚ) < 4 * w.freq := by
        have := hfreq w (List.mem_cons_self w ws)
        linarith
      exact lt_of_lt_of_le h4 (listMax_lower _ _ _ le_rfl)
    have hFR : (0 : ℝ) <
        ((listMax (4 * w.freq) (ws.map fun u => 4 * u.freq) : ℚ) : ℝ) := by
      exact_mod_cast hF
    constructor
    · simp only [dispersion_check, hfm, List.map_cons]
      congr 2
      rw [div_div]
      ring
    · exact div_pos (div_pos lightspeed_pos hMpos)
        (mul_pos (by norm_num) hFR)

/-- Witness for `dispersion_check_spec`: one 1-Hz sine waveform over the
free-space material. -/
theorem dispersion_check_spec_w :
    dispersion_check [⟨WaveKind.sine, 1⟩] [wMat] =
        Except.ok (some (lightspeed /
            Real.sqrt ((listMax wMat.er (List.map (fun x => x.er) ([] : List SMaterial)) : ℚ)) /
          (10 * ((listMax (4 * (⟨WaveKind.sine, 1⟩ : Waveform).freq)
              (List.map (fun u => 4 * u.freq) ([] : List Waveform)) : ℚ))))) ∧
      0 < lightspeed /
          Real.sqrt ((listMax wMat.er (List.map (fun x => x.er) ([] : List SMaterial)) : ℚ)) /
        (10 * ((listMax (4 * (⟨WaveKind.sine, 1⟩ : Waveform).freq)
            (List.map (fun u => 4 * u.freq) ([] : List Waveform)) : ℚ))) :=
  dispersion_check_spec.2.2 ⟨WaveKind.sine, 1⟩ [] wMat []
    (by intro u hu; rw [List.mem_singleton] at hu; subst hu; exact Or.inl rfl)
    (by intro u hu; rw [List.mem_singleton] at hu; subst hu; norm_num)
    (by intro x hx; rw [List.mem_singleton] at hx; subst hx; norm_num [wMat])

end GprMax
